import Mathlib

/-!
Verification of the `ars` crate: the `Range` half-open index type
(`src/range.rs`) and the `FmtSlice` display wrapper (`src/fmt/slice.rs`).

The type `usize` is modelled as `Nat`; where the source uses saturating
arithmetic, the model saturates explicitly at `USIZE_MAX = 2^64 - 1` for
addition (`Nat` subtraction already saturates at 0, matching
`saturating_sub`).
-/

/-- Largest `usize` value on a 64-bit platform. -/
def USIZE_MAX : Nat := 2 ^ 64 - 1

/-- Rust `usize::saturating_add`, clamping at `USIZE_MAX`. -/
def saturating_add (a b : Nat) : Nat := min (a + b) USIZE_MAX

/-- Rust `usize::saturating_sub`; on `Nat`, truncated subtraction. -/
def saturating_sub (a b : Nat) : Nat := a - b

/-- Embeds `pub struct Range(pub usize, pub usize)`: start inclusive, end
exclusive. `fst`, `snd` are the tuple fields `.0`, `.1`. -/
structure Range where
  fst : Nat
  snd : Nat
deriving DecidableEq, Repr

namespace Range

/-- Embeds `Range::new(start, end)`. -/
def new (start stop : Nat) : Range := ⟨start, stop⟩

/-- Embeds `Range::start`: the start (inclusive) of the range. -/
def start (r : Range) : Nat := r.fst

/-- Embeds `Range::end`: the end (exclusive) of the range. -/
def end_ (r : Range) : Nat := r.snd

/-- Embeds `Range::len`: `self.1.saturating_sub(self.0)`. -/
def len (r : Range) : Nat := saturating_sub r.snd r.fst

/-- Embeds `Range::is_empty`: `self.0 >= self.1`. -/
def is_empty (r : Range) : Bool := decide (r.fst ≥ r.snd)

/-- Embeds `Range::contains`: `index >= self.0 && index < self.1`. -/
def contains (r : Range) (index : Nat) : Bool :=
  decide (index ≥ r.fst) && decide (index < r.snd)

/-- Embeds `Range::clamp_to`: both bounds capped at `len`. -/
def clamp_to (r : Range) (len : Nat) : Range :=
  ⟨min r.fst len, min r.snd len⟩

/-- Embeds `Range::intersect`: `(max starts, min ends)` when that is
non-empty, otherwise `None`. -/
def intersect (r other : Range) : Option Range :=
  let s := max r.fst other.fst
  let e := min r.snd other.snd
  if s < e then some ⟨s, e⟩ else none

/-- Embeds `Range::offset`: unchecked shift of both bounds (modelled exactly
on `Nat`; overflow is the caller's responsibility in the source). -/
def offset (r : Range) (delta : Nat) : Range :=
  ⟨r.fst + delta, r.snd + delta⟩

/-- Embeds `Range::shrink`: saturating grow of start / shrink of end,
normalized to `(s, s)` when the result would be inverted. -/
def shrink (r : Range) (start_shrink end_shrink : Nat) : Range :=
  let s := saturating_add r.fst start_shrink
  let e := saturating_sub r.snd end_shrink
  if s ≥ e then ⟨s, s⟩ else ⟨s, e⟩

end Range

/-- Embeds `impl Index<Range> for [T]`: `&self[index.0..index.1]`. Rust slice
indexing with `start..end` panics unless `start <= end` and
`end <= self.len()`; the panic branch is modelled as `none`. -/
def indexRange (l : List α) (r : Range) : Option (List α) :=
  if r.fst ≤ r.snd ∧ r.snd ≤ l.length then
    some ((l.drop r.fst).take (r.snd - r.fst))
  else
    none

/-- Embeds `core::ops::Range<usize>`, the native half-open range type. -/
structure CoreRange where
  start : Nat
  stop : Nat
deriving DecidableEq, Repr

/-- Embeds `impl From<core::ops::Range<usize>> for Range`. -/
def Range.fromCore (c : CoreRange) : Range := ⟨c.start, c.stop⟩

/-- Embeds `impl From<Range> for core::ops::Range<usize>`. -/
def Range.toCore (r : Range) : CoreRange := ⟨r.fst, r.snd⟩

/-- Embeds `impl From<(usize, usize)> for Range`. -/
def Range.fromPair (t : Nat × Nat) : Range := ⟨t.1, t.2⟩

/-- Embeds `impl From<Range> for (usize, usize)`. -/
def Range.toPair (r : Range) : Nat × Nat := (r.fst, r.snd)

/-- Embeds `impl Display for FmtSlice`: writes `[`, then the first element,
then `", "` followed by each further element, then `]`. Element rendering is
abstracted as `render` (the element type's `Display`). -/
def fmtSlice (render : α → String) (l : List α) : String :=
  "[" ++
    (match l with
      | [] => ""
      | v :: rest => rest.foldl (fun acc x => acc ++ ", " ++ render x) (render v)) ++
  "]"

/-- Modelled from the spec: elements joined by the separator. -/
def joinedBy (sep : String) : List String → String
  | [] => ""
  | [s] => s
  | s :: rest => s ++ sep ++ joinedBy sep rest

/-- Modelled from the spec: the rendered form is the elements' own textual
representations joined by `", "`, wrapped in `[` and `]`. -/
def specRender (render : α → String) (l : List α) : String :=
  "[" ++ joinedBy ", " (l.map render) ++ "]"

/-! ## Helper lemmas -/

theorem joinedBy_append_head (a b : String) (l : List String) :
    joinedBy ", " ((a ++ b) :: l) = a ++ joinedBy ", " (b :: l) := by
  cases l with
  | nil => rfl
  | cons c cs => simp [joinedBy, String.append_assoc]

theorem foldl_append_render (render : α → String) (rest : List α) (acc : String) :
    rest.foldl (fun acc x => acc ++ ", " ++ render x) acc =
      joinedBy ", " (acc :: rest.map render) := by
  induction rest generalizing acc with
  | nil => rfl
  | cons x xs ih =>
      simp only [List.foldl, List.map]
      rw [ih, joinedBy_append_head]
      cases xs with
      | nil => rfl
      | cons y ys => simp [joinedBy, String.append_assoc]

/-! ## Claims -/

/-- C1, counterexample: the inverted range `(5, 3)` clamped to length 10 stays
`(5, 3)`, and slice indexing with it hits the invalid-slice panic branch
(start > end), so `clamp_to` does not make indexing with every range safe. -/
theorem clamp_to_inverted_index_fails :
    ((Range.new 5 3).clamp_to 10).fst ≤ 10 ∧
    ((Range.new 5 3).clamp_to 10).snd ≤ 10 ∧
    indexRange (List.replicate 10 (0 : Nat)) ((Range.new 5 3).clamp_to 10) = none := by
  decide

/-- C1, amended: for every range `r` and sequence `l`, both bounds of
`r.clamp_to(l.length)` are `<= l.length`; and for every non-inverted range
(`start <= end`) indexing `l` with `r.clamp_to(l.length)` never reaches the
panic branch. (For inverted ranges the invalid-slice panic is reachable.) -/
theorem clamp_to_bounds_and_safe_index (α : Type) (l : List α) (r : Range) :
    (r.clamp_to l.length).fst ≤ l.length ∧
    (r.clamp_to l.length).snd ≤ l.length ∧
    (r.fst ≤ r.snd → (indexRange l (r.clamp_to l.length)).isSome = true) := by
  refine ⟨Nat.min_le_right _ _, Nat.min_le_right _ _, fun h => ?_⟩
  have h1 : min r.fst l.length ≤ min r.snd l.length :=
    min_le_min h (Nat.le_refl _)
  have h2 : min r.snd l.length ≤ l.length := Nat.min_le_right _ _
  simp only [indexRange, Range.clamp_to]
  rw [if_pos ⟨h1, h2⟩]
  rfl

/-- C1, witness for the amended theorem at `r = (1, 3)`, `l = [0,1,2,3,4]`. -/
theorem clamp_to_bounds_and_safe_index_witness :
    (1 ≤ 3) ∧
    (indexRange ([0, 1, 2, 3, 4] : List Nat)
      ((Range.new 1 3).clamp_to (List.length ([0, 1, 2, 3, 4] : List Nat)))).isSome = true :=
  ⟨by decide,
   (clamp_to_bounds_and_safe_index Nat [0, 1, 2, 3, 4] (Range.new 1 3)).2.2 (by decide)⟩

/-- C2, counterexample: for the non-degenerate range `(2, 7)` and `d = 3 <= len`,
`r.offset(3).shrink(3, 0)` is `(8, 10)`, not `Range::new(2 + 3, 7)`: `shrink`
adds its first argument to the already-offset start, so the claimed identity
fails. -/
theorem offset_shrink_claim_fails :
    (Range.new 2 7).fst < (Range.new 2 7).snd ∧
    3 ≤ (Range.new 2 7).len ∧
    ¬(((Range.new 2 7).offset 3).shrink 3 0 = Range.new (2 + 3) 7) := by
  decide

/-- C2, amended: for every non-degenerate range `r` (start < end with a
representable end) and every `d <= r.len()`, `r.offset(d).shrink(0, d)`
equals `Range::new(r.start() + d, r.end())`; the composition of offset then
shrink is not an identity in general because shrink normalizes degenerate
cases. -/
theorem offset_shrink_amended (r : Range) (d : Nat)
    (hne : r.fst < r.snd) (hd : d ≤ r.len) (hmax : r.snd ≤ USIZE_MAX) :
    (r.offset d).shrink 0 d = Range.new (r.fst + d) r.snd := by
  simp only [Range.len, saturating_sub] at hd
  have hfle : r.fst + d ≤ r.snd := by omega
  simp only [Range.offset, Range.shrink, saturating_add, saturating_sub, Range.new]
  have hs : min (r.fst + d + 0) USIZE_MAX = r.fst + d := by omega
  have he : r.snd + d - d = r.snd := by omega
  rw [hs, he]
  split
  · next hge =>
      have : r.fst + d = r.snd := Nat.le_antisymm hfle hge
      rw [this]
  · rfl

/-- C2, witness for the amended theorem at `r = (2, 7)`, `d = 3`. -/
theorem offset_shrink_amended_witness :
    ((Range.new 2 7).offset 3).shrink 0 3 = Range.new (2 + 3) 7 :=
  offset_shrink_amended (Range.new 2 7) 3 (by decide) (by decide) (by decide)

/-- C3: `shrink(a, b)` computes the new start as `start + a` and the new end
as `end - b`, both saturating; whenever the resulting start is `>=` the
resulting end it returns the empty range `(s, s)` at the new post-shrink
start; concretely `Range::new(2,7).shrink(1,2) = Range::new(3,5)` and
`Range::new(2,7).shrink(10,0).is_empty()`. -/
theorem shrink_spec (r : Range) (a b : Nat) :
    (r.shrink a b).fst = min (r.fst + a) USIZE_MAX ∧
    (r.snd - b ≤ min (r.fst + a) USIZE_MAX →
      r.shrink a b = Range.new (min (r.fst + a) USIZE_MAX) (min (r.fst + a) USIZE_MAX)) ∧
    (min (r.fst + a) USIZE_MAX < r.snd - b →
      r.shrink a b = Range.new (min (r.fst + a) USIZE_MAX) (r.snd - b)) ∧
    (Range.new 2 7).shrink 1 2 = Range.new 3 5 ∧
    ((Range.new 2 7).shrink 10 0).is_empty = true := by
  refine ⟨?_, ?_, ?_, by decide, by decide⟩ <;>
    simp only [Range.shrink, saturating_add, saturating_sub, Range.new]
  · split <;> rfl
  · intro h
    rw [if_pos h]
  · intro h
    rw [if_neg (by omega)]

/-- C3, witness at `r = (2, 7)`, `a = 10`, `b = 0` (the normalized branch). -/
theorem shrink_spec_witness :
    (7 - 0 ≤ min (2 + 10) USIZE_MAX) ∧
    (Range.new 2 7).shrink 10 0 =
      Range.new (min (2 + 10) USIZE_MAX) (min (2 + 10) USIZE_MAX) :=
  ⟨by decide, (shrink_spec (Range.new 2 7) 10 0).2.1 (by decide)⟩

/-- C4: `a.intersect(&b)` is `Some((max(a.start,b.start), min(a.end,b.end)))`
exactly when `max(a.start,b.start) < min(a.end,b.end)`, and `None` otherwise
(abutting ranges yield `None`); concretely `[0,2) ∩ [2,4) = None` and
`[0,5) ∩ [3,8) = Some([3,5))`. -/
theorem intersect_spec (a b : Range) :
    (max a.fst b.fst < min a.snd b.snd →
      a.intersect b = some (Range.new (max a.fst b.fst) (min a.snd b.snd))) ∧
    (min a.snd b.snd ≤ max a.fst b.fst → a.intersect b = none) ∧
    (Range.new 0 2).intersect (Range.new 2 4) = none ∧
    (Range.new 0 5).intersect (Range.new 3 8) = some (Range.new 3 5) := by
  refine ⟨?_, ?_, by decide, by decide⟩ <;>
    simp only [Range.intersect, Range.new]
  · intro h
    rw [if_pos h]
  · intro h
    rw [if_neg (by omega)]

/-- C4, witness at `a = (0, 5)`, `b = (3, 8)`. -/
theorem intersect_spec_witness :
    (max 0 3 < min 5 8) ∧
    (Range.new 0 5).intersect (Range.new 3 8) = some (Range.new (max 0 3) (min 5 8)) :=
  ⟨by decide, (intersect_spec (Range.new 0 5) (Range.new 3 8)).1 (by decide)⟩

/-- C5: for `a <= b`, `Range::new(a,b).len() = b - a`; for `a > b`, `len = 0`
and `is_empty`; `is_empty` holds exactly when `start >= end`, and `len`
never wraps or goes negative. -/
theorem len_is_empty_spec (a b : Nat) :
    (a ≤ b → (Range.new a b).len = b - a) ∧
    (b < a → (Range.new a b).len = 0 ∧ (Range.new a b).is_empty = true) ∧
    ((Range.new a b).is_empty = true ↔ b ≤ a) := by
  refine ⟨fun h => ?_, fun h => ⟨?_, ?_⟩, ?_⟩ <;>
    simp only [Range.new, Range.len, Range.is_empty, saturating_sub, ge_iff_le,
      decide_eq_true_eq] <;>
    omega

/-- C5, witness: `len` at `(2, 5)` and `len`/`is_empty` at the inverted `(5, 3)`. -/
theorem len_is_empty_spec_witness :
    (Range.new 2 5).len = 5 - 2 ∧
    ((Range.new 5 3).len = 0 ∧ (Range.new 5 3).is_empty = true) :=
  ⟨(len_is_empty_spec 2 5).1 (by decide), (len_is_empty_spec 5 3).2.1 (by decide)⟩

/-- C6: converting a native half-open range to `Range` and back is the
identity, and converting a `(start, end)` pair to `Range` and back is the
identity; all four conversions are total functions. -/
theorem conversions_roundtrip :
    (∀ c : CoreRange, Range.toCore (Range.fromCore c) = c) ∧
    (∀ t : Nat × Nat, Range.toPair (Range.fromPair t) = t) :=
  ⟨fun _ => rfl, fun _ => rfl⟩

/-- C7: rendering `FmtSlice` produces exactly the elements' own textual
representations joined by `", "`, wrapped in `[` and `]`; the empty sequence
renders as `"[]"` and `[1,2,3]` renders as `"[1, 2, 3]"`. -/
theorem fmtSlice_spec :
    (∀ (α : Type) (render : α → String) (l : List α),
      fmtSlice render l = specRender render l) ∧
    fmtSlice (fun n : Nat => toString n) [] = "[]" ∧
    fmtSlice (fun n : Nat => toString n) [1, 2, 3] = "[1, 2, 3]" := by
  refine ⟨?_, by decide, by decide⟩
  intro α render l
  cases l with
  | nil => rfl
  | cons v rest =>
      simp only [fmtSlice, specRender, List.map]
      rw [foldl_append_render]

/-- C8: intersection is commutative, including the `None` cases. -/
theorem intersect_comm (a b : Range) : a.intersect b = b.intersect a := by
  simp only [Range.intersect, Nat.max_comm a.fst b.fst, Nat.min_comm a.snd b.snd]

/-- C9: when `a.intersect(&b)` returns `Some(r)`, `r` is non-empty and every
index contained in `r` is contained in both `a` and `b`. -/
theorem intersect_sound (a b r : Range) (h : a.intersect b = some r) :
    r.fst < r.snd ∧
    ∀ i : Nat, r.contains i = true → a.contains i = true ∧ b.contains i = true := by
  simp only [Range.intersect] at h
  by_cases hlt : max a.fst b.fst < min a.snd b.snd
  · rw [if_pos hlt] at h
    injection h with h
    subst h
    refine ⟨hlt, fun i hi => ?_⟩
    simp only [Range.contains, Bool.and_eq_true, decide_eq_true_eq, ge_iff_le] at hi ⊢
    omega
  · rw [if_neg hlt] at h
    exact absurd h (by simp)

/-- C9, witness: `(0,5) ∩ (3,8) = Some((3,5))`, which is non-empty and whose
member `4` is in both inputs. -/
theorem intersect_sound_witness :
    (Range.new 3 5).fst < (Range.new 3 5).snd ∧
    ((Range.new 0 5).contains 4 = true ∧ (Range.new 3 8).contains 4 = true) :=
  ⟨(intersect_sound (Range.new 0 5) (Range.new 3 8) (Range.new 3 5) (by decide)).1,
   (intersect_sound (Range.new 0 5) (Range.new 3 8) (Range.new 3 5) (by decide)).2
     4 (by decide)⟩

/-- C10: `shrink` never returns an inverted range — for every range (inverted
or not) and all shrink amounts, the result satisfies `start <= end`, so its
`len` equals `end - start` exactly. -/
theorem shrink_not_inverted (r : Range) (a b : Nat) :
    (r.shrink a b).fst ≤ (r.shrink a b).snd ∧
    (r.shrink a b).len = (r.shrink a b).snd - (r.shrink a b).fst := by
  simp only [Range.shrink, Range.len, saturating_sub, saturating_add]
  split
  · simp
  · simp
    omega
